import Mathlib

/-!
Verification of the workflow-lifecycle core of the addon-manager repository
(`pkg/workflows/workflow.go`) against its natural-language specification.

The Go code operates on `unstructured.Unstructured` document trees
(`map[string]interface{}` / `[]interface{}` / scalars).  We embed those trees
as the inductive type `Val` below and translate each Go function into a Lean
function over `Val`.  Go runtime panics (failed type assertions, writes to a
nil map) are modelled by the `Res.panic` constructor, returned Go errors by
`Res.err`, and normal returns by `Res.ok`.
-/

set_option maxRecDepth 4096

namespace AddonManager

/-- Embedding of Go `interface{}` values as they occur in
`unstructured.Unstructured` content: JSON-like trees.  Go maps are embedded as
association lists with unique keys; lookup takes the first matching key. -/
inductive Val where
  | null
  | str (s : String)
  | int (n : Int)
  | bool (b : Bool)
  | list (xs : List Val)
  | map (m : List (String × Val))

/-- Outcome of running a Go function that can return an error or abort the
process: `ok` is a normal return, `err` a returned Go `error` (or a `false`
success flag), `panic` a runtime panic such as a failed type assertion or an
assignment to a nil map. -/
inductive Res (α : Type) where
  | ok (a : α)
  | err (msg : String)
  | panic

/-- Go map read `m[k]`: `some v` when the key is present, `none` otherwise
(Go yields the zero value `nil`, which we model as absence). -/
def lookupStr (m : List (String × Val)) (k : String) : Option Val :=
  match m with
  | [] => none
  | (k', v) :: rest => if k' = k then some v else lookupStr rest k

/-- Go map write `m[k] = v`: replace the first binding of `k`, or append a new
binding when `k` is absent. -/
def setKey (m : List (String × Val)) (k : String) (v : Val) : List (String × Val) :=
  match m with
  | [] => [(k, v)]
  | (k', v') :: rest => if k' = k then (k, v) :: rest else (k', v') :: setKey rest k v

/-- A Go `interface{}` value is `nil` when the key is absent or holds an
explicit null (both read back as `nil`). -/
def isNilV (v : Option Val) : Bool :=
  match v with
  | none => true
  | some Val.null => true
  | some _ => false

theorem lookupStr_setKey_self (m : List (String × Val)) (k : String) (v : Val) :
    lookupStr (setKey m k v) k = some v := by
  induction m with
  | nil => simp [setKey, lookupStr]
  | cons hd tl ih =>
    obtain ⟨k', v'⟩ := hd
    by_cases h : k' = k <;> simp [setKey, lookupStr, h, ih]


theorem lookupStr_setKey_other (m : List (String × Val)) (k k' : String) (v : Val)
    (h : k' ≠ k) : lookupStr (setKey m k v) k' = lookupStr m k' := by
  induction m with
  | nil => simp [setKey, lookupStr, if_neg (Ne.symm h)]
  | cons hd tl ih =>
    obtain ⟨k₀, v₀⟩ := hd
    by_cases h₀ : k₀ = k
    · subst h₀
      simp [setKey, lookupStr, if_neg (Ne.symm h)]
    · simp only [setKey, if_neg h₀, lookupStr]
      by_cases h₁ : k₀ = k' <;> simp [h₁, ih]

theorem lookupStr_setKey (m : List (String × Val)) (k k' : String) (v : Val) :
    lookupStr (setKey m k v) k' = if k = k' then some v else lookupStr m k' := by
  by_cases h : k = k'
  · subst h; simp [lookupStr_setKey_self]
  · simp [if_neg h, lookupStr_setKey_other m k k' v (Ne.symm h)]

/-- Result of `unstructured.NestedFieldNoCopy`: `found v` when every key on the
path exists and all intermediate values are maps, `absent` when some key is
missing, `typeErr` when an intermediate value is not a map (Go returns an
error in that case). -/
inductive Nested where
  | found (v : Val)
  | absent
  | typeErr

/-- `unstructured.NestedFieldNoCopy(m, path...)`. -/
def nestedFieldNoCopy (m : List (String × Val)) : List String → Nested
  | [] => Nested.found (Val.map m)
  | [f] =>
    match lookupStr m f with
    | some v => Nested.found v
    | none => Nested.absent
  | f :: rest =>
    match lookupStr m f with
    | some (Val.map m') => nestedFieldNoCopy m' rest
    | some _ => Nested.typeErr
    | none => Nested.absent

/-- `unstructured.NestedString` as used with all outputs but the value ignored
(`data, _, _ :=` in `processArtifacts`): yields the string when present,
`""` otherwise. -/
def nestedStringOr (m : List (String × Val)) (path : List String) : String :=
  match nestedFieldNoCopy m path with
  | Nested.found (Val.str s) => s
  | _ => ""

/-- The `(found, err)` outcome of `unstructured.NestedMap`: `found` with the
map, `absent` when a key on the path is missing, `typeErr` when a value on the
path (or the final value) is not a map. -/
inductive MapRes where
  | found (m : List (String × Val))
  | absent
  | typeErr

/-- `unstructured.NestedMap(m, path...)` (the deep copy is the identity in
this pure embedding). -/
def nestedMapGo (m : List (String × Val)) (path : List String) : MapRes :=
  match nestedFieldNoCopy m path with
  | Nested.found (Val.map m') => MapRes.found m'
  | Nested.found _ => MapRes.typeErr
  | Nested.absent => MapRes.absent
  | Nested.typeErr => MapRes.typeErr

/-- `unstructured.SetNestedField` (also `SetNestedMap` / `SetNestedSlice`,
whose deep copies are the identity here): walks the path, creating empty maps
for missing keys, and fails with an error when an existing intermediate value
is not a map. -/
def setNestedFieldGo (m : List (String × Val)) (v : Val) : List String → Res (List (String × Val))
  | [] => Res.ok m
  | [f] => Res.ok (setKey m f v)
  | f :: rest =>
    match lookupStr m f with
    | some (Val.map m') =>
      match setNestedFieldGo m' v rest with
      | Res.ok m'' => Res.ok (setKey m f (Val.map m''))
      | Res.err e => Res.err e
      | Res.panic => Res.panic
    | some _ => Res.err "value cannot be set because it is not a map"
    | none =>
      match setNestedFieldGo [] v rest with
      | Res.ok m'' => Res.ok (setKey m f (Val.map m''))
      | Res.err e => Res.err e
      | Res.panic => Res.panic

/-- Read a top-level key of an unstructured object
(`w.UnstructuredContent()[k]`). -/
def contentLookup (w : Val) (k : String) : Option Val :=
  match w with
  | Val.map m => lookupStr m k
  | _ => none

/-- Shared accessor for `GetName` / `GetNamespace`: reads
`metadata.<field>`, defaulting to `""` as the Go accessors do. -/
def getMeta (w : Val) (field : String) : String :=
  match contentLookup w "metadata" with
  | some (Val.map md) =>
    match lookupStr md field with
    | some (Val.str s) => s
    | _ => ""
  | _ => ""

/-- `w.GetName()`. -/
def getName (w : Val) : String := getMeta w "name"

/-- `w.GetNamespace()`. -/
def getNamespaceW (w : Val) : String := getMeta w "namespace"

/-- Is the first character list a leading segment of the second
(`strings.HasPrefix` on rune lists)? -/
def listPre : List Char → List Char → Bool
  | [], _ => true
  | _ :: _, [] => false
  | a :: xs, b :: ys => a == b && listPre xs ys

/-- Does `sub` occur contiguously inside `s`? -/
def listInf (sub : List Char) : List Char → Bool
  | [] => listPre sub []
  | c :: rest => listPre sub (c :: rest) || listInf sub rest

/-- `strings.Contains(s, sub)`. -/
def goContains (s sub : String) : Bool := listInf sub.data s.data

/-- Numeric value of a decimal digit character. -/
def digitVal (c : Char) : Option Nat :=
  if '0' ≤ c ∧ c ≤ '9' then some (c.toNat - '0'.toNat) else none

/-- Leap-year rule used by Go's `time` package. -/
def isLeap (y : Nat) : Bool := (y % 4 == 0 && y % 100 != 0) || y % 400 == 0

/-- Days in a month, as validated by Go's `time.Parse`. -/
def daysInMonth (y mo : Nat) : Nat :=
  if mo == 2 then (if isLeap y then 29 else 28)
  else if mo == 4 || mo == 6 || mo == 9 || mo == 11 then 30
  else 31

/-- Order-preserving encoding of a calendar date-time into a natural number:
lexicographic on (year, month, day, hour, minute, second), so `<` on the
encoding agrees with `time.Time.Before`. -/
def encodeTime (y mo d h mi se : Nat) : Nat :=
  ((((y * 13 + mo) * 32 + d) * 24 + h) * 60 + mi) * 60 + se

/-- `time.Parse(time.RFC3339, s)`, modelled on the canonical UTC form
`YYYY-MM-DDTHH:MM:SSZ` (fractional seconds and numeric zone offsets are not
modelled); `none` is a parse error.  The result is the order-preserving
`encodeTime` encoding. -/
def rfc3339ToNat (s : String) : Option Nat :=
  match s.data with
  | [y1, y2, y3, y4, '-', a1, a2, '-', d1, d2, 'T',
     h1, h2, ':', i1, i2, ':', e1, e2, 'Z'] => do
    let y := (← digitVal y1) * 1000 + (← digitVal y2) * 100 + (← digitVal y3) * 10 + (← digitVal y4)
    let mo := (← digitVal a1) * 10 + (← digitVal a2)
    let d := (← digitVal d1) * 10 + (← digitVal d2)
    let h := (← digitVal h1) * 10 + (← digitVal h2)
    let mi := (← digitVal i1) * 10 + (← digitVal i2)
    let se := (← digitVal e1) * 10 + (← digitVal e2)
    if 1 ≤ mo ∧ mo ≤ 12 ∧ 1 ≤ d ∧ d ≤ daysInMonth y mo ∧ h ≤ 23 ∧ mi ≤ 59 ∧ se ≤ 59 then
      some (encodeTime y mo d h mi se)
    else none
  | _ => none

/-- The zero `time.Time` (January 1, year 1, 00:00:00 UTC) under
`encodeTime`; `mostRecentWorkflowTime` starts here. -/
def timeZeroEnc : Nat := encodeTime 1 1 1 0 0 0

/-- The fields of `w.addon` read by the workflow lifecycle: `addon.Name`,
`addon.Namespace` (field `ns`), `addon.Status.Checksum` (field `checksum`)
and `addon.Spec.PackageSpec.PkgVersion` (field `pkgVersion`). -/
structure AddonCtx where
  name : String
  ns : String
  checksum : String
  pkgVersion : String

/-- The backing store: the set of Workflow objects the dynamic client
lists/gets/creates/deletes, each an unstructured content tree. -/
def Store := List Val

/-- `dynClient...Namespace(ns).List`: all workflows in the namespace. -/
def listNs (store : List Val) (ns : String) : List Val :=
  store.filter (fun w => getNamespaceW w == ns)

/-- `w.Delete(name)` on the store: removes the named workflow from the
addon's namespace. -/
def deleteByName (store : List Val) (ns nm : String) : List Val :=
  store.filter (fun w => !(getNamespaceW w == ns && getName w == nm))

/-- Outcome of the first loop of `deleteCollisionWorkflows`: `earlyExit` is
the `return false, nil` taken when a correlated workflow has no status block;
`done` carries `mostRecentWorkflow` (`none` when `.Object == nil`). -/
inductive ScanOut where
  | earlyExit
  | done (mostRecent : Option Val)

/-- First loop of `deleteCollisionWorkflows` (lines 433-448): find the
most-recently started workflow whose name contains the addon's name.  Reads
`status` (nil check, then map assertion), `status.startedAt` (string
assertion), parses it as RFC3339, and keeps the workflow whose start time is
not before the best so far. -/
def scanMostRecent (an : String) : List Val → Nat → Option Val → Res ScanOut
  | [], _, acc => Res.ok (ScanOut.done acc)
  | w :: rest, best, acc =>
    if goContains (getName w) an then
      match contentLookup w "status" with
      | none => Res.ok ScanOut.earlyExit
      | some Val.null => Res.ok ScanOut.earlyExit
      | some (Val.map st) =>
        match lookupStr st "startedAt" with
        | some (Val.str sa) =>
          match rfc3339ToNat sa with
          | some t =>
            if t < best then scanMostRecent an rest best acc
            else scanMostRecent an rest t (some w)
          | none => Res.err "time parse error"
        | _ => Res.panic
      | some _ => Res.panic
    else scanMostRecent an rest best acc

/-- Second loop of `deleteCollisionWorkflows` (lines 456-462): for every
listed workflow, read `status.phase` through unchecked type assertions, and
delete it (best effort, error ignored) when its name contains
`addon.Status.Checksum` and the phase is not Pending. -/
def deleteStaleLoop (ctx : AddonCtx) : List Val → List Val → Bool → Res (Bool × List Val)
  | [], store, deleted => Res.ok (deleted, store)
  | w :: rest, store, deleted =>
    match contentLookup w "status" with
    | some (Val.map st) =>
      match lookupStr st "phase" with
      | some (Val.str phase) =>
        if goContains (getName w) ctx.checksum && phase != "Pending" then
          deleteStaleLoop ctx rest (deleteByName store ctx.ns (getName w)) true
        else
          deleteStaleLoop ctx rest store deleted
      | _ => Res.panic
    | _ => Res.panic

/-- `deleteCollisionWorkflows` (lines 422-466): list the namespace, find the
most recent workflow correlated to the addon, and if its name does not
contain `addon.Status.Checksum`, delete every listed workflow whose name
contains that checksum and whose phase is not Pending. -/
def deleteCollisionWorkflows (ctx : AddonCtx) (store : List Val) : Res (Bool × List Val) :=
  let items := listNs store ctx.ns
  match scanMostRecent ctx.name items timeZeroEnc none with
  | Res.err e => Res.err e
  | Res.panic => Res.panic
  | Res.ok ScanOut.earlyExit => Res.ok (false, store)
  | Res.ok (ScanOut.done none) => Res.ok (false, store)
  | Res.ok (ScanOut.done (some mr)) =>
    if !(goContains (getName mr) ctx.checksum) then
      deleteStaleLoop ctx items store false
    else
      Res.ok (false, store)

/-- Statement helper: the `status.phase` string of a workflow, `""` when the
status block is missing or not of the asserted shape. -/
def phaseStrOf (w : Val) : String :=
  match contentLookup w "status" with
  | some (Val.map st) =>
    match lookupStr st "phase" with
    | some (Val.str p) => p
    | _ => ""
  | _ => ""

/-- Statement helper: the deletion condition of the second loop of
`deleteCollisionWorkflows` — the name contains `addon.Status.Checksum` and
the phase is not Pending. -/
def staleCond (ctx : AddonCtx) (w : Val) : Bool :=
  goContains (getName w) ctx.checksum && phaseStrOf w != "Pending"

theorem deleteStaleLoop_spec (ctx : AddonCtx) (items : List Val) :
    ∀ (store : List Val) (d : Bool),
    (∀ w ∈ items, ∃ st ph, contentLookup w "status" = some (Val.map st) ∧
        lookupStr st "phase" = some (Val.str ph)) →
    ∃ s', deleteStaleLoop ctx items store d = Res.ok (d || items.any (staleCond ctx), s')
      ∧ (∀ w' ∈ s', w' ∈ store)
      ∧ (∀ w ∈ items, staleCond ctx w = true →
          ∀ w' ∈ s', (getNamespaceW w' == ctx.ns && getName w' == getName w) = false)
      ∧ (∀ w' ∈ store, (∀ w ∈ items, staleCond ctx w = true →
          (getNamespaceW w' == ctx.ns && getName w' == getName w) = false) → w' ∈ s') := by
  induction items with
  | nil =>
    intro store d _
    exact ⟨store, by simp [deleteStaleLoop], fun w' h => h, by simp, fun w' h _ => h⟩
  | cons w rest ih =>
    intro store d H
    rcases H w (List.mem_cons_self w rest) with ⟨st, ph, hst, hph⟩
    have Hrest : ∀ w₁ ∈ rest, ∃ st₁ ph₁, contentLookup w₁ "status" = some (Val.map st₁) ∧
        lookupStr st₁ "phase" = some (Val.str ph₁) :=
      fun w₁ h₁ => H w₁ (List.mem_cons_of_mem w h₁)
    have hphase : phaseStrOf w = ph := by simp [phaseStrOf, hst, hph]
    have hcond : staleCond ctx w = (goContains (getName w) ctx.checksum && ph != "Pending") := by
      simp [staleCond, hphase]
    by_cases hc : (goContains (getName w) ctx.checksum && ph != "Pending") = true
    · rcases ih (deleteByName store ctx.ns (getName w)) true Hrest with
        ⟨s', hrun, hsub, hdel, hpres⟩
      refine ⟨s', ?_, ?_, ?_, ?_⟩
      · simp only [deleteStaleLoop, hst, hph, hc, if_true]
        rw [hrun]
        simp [List.any_cons, hcond, hc]
      · intro w' hw'
        exact List.mem_filter.mp (hsub w' hw') |>.1
      · intro w₁ h₁ hstale w' hw'
        rcases List.mem_cons.mp h₁ with h₁ | h₁
        · subst h₁
          have hmem := hsub w' hw'
          have h₂ := List.mem_filter.mp hmem |>.2
          simp only [Bool.not_eq_true'] at h₂
          exact h₂
        · exact hdel w₁ h₁ hstale w' hw'
      · intro w' hw' hsafe
        have hw₀ : (getNamespaceW w' == ctx.ns && getName w' == getName w) = false :=
          hsafe w (List.mem_cons_self w rest) (hcond ▸ hc)
        have hmem : w' ∈ deleteByName store ctx.ns (getName w) := by
          refine List.mem_filter.mpr ⟨hw', ?_⟩
          simp [hw₀]
        exact hpres w' hmem (fun w₁ h₁ hs => hsafe w₁ (List.mem_cons_of_mem w h₁) hs)
    · rcases ih store d Hrest with ⟨s', hrun, hsub, hdel, hpres⟩
      refine ⟨s', ?_, hsub, ?_, ?_⟩
      · simp only [deleteStaleLoop, hst, hph, hc, if_false]
        rw [hrun]
        have hcf : (goContains (getName w) ctx.checksum && ph != "Pending") = false :=
          Bool.not_eq_true _ ▸ eq_false_of_ne_true hc
        simp [List.any_cons, hcond, hcf]
      · intro w₁ h₁ hstale w' hw'
        rcases List.mem_cons.mp h₁ with h₁ | h₁
        · subst h₁
          rw [hcond] at hstale
          exact absurd hstale hc
        · exact hdel w₁ h₁ hstale w' hw'
      · intro w' hw' hsafe
        exact hpres w' hw' (fun w₁ h₁ hs => hsafe w₁ (List.mem_cons_of_mem w h₁) hs)

/-- Concrete scenario: the older execution, named with checksum `aaa`, phase
Succeeded, earlier `startedAt`. -/
def wfOldA : Val := Val.map [
  ("metadata", Val.map [("name", Val.str "my-aaa-wf"), ("namespace", Val.str "ns")]),
  ("status", Val.map [("startedAt", Val.str "2020-01-01T00:00:00Z"),
                      ("phase", Val.str "Succeeded")])]

/-- The `wfOldA` execution with phase Pending instead of Succeeded. -/
def wfOldAPending : Val := Val.map [
  ("metadata", Val.map [("name", Val.str "my-aaa-wf"), ("namespace", Val.str "ns")]),
  ("status", Val.map [("startedAt", Val.str "2020-01-01T00:00:00Z"),
                      ("phase", Val.str "Pending")])]

/-- The newer execution, named with checksum `bbb`, phase Succeeded, later
`startedAt`. -/
def wfNewB : Val := Val.map [
  ("metadata", Val.map [("name", Val.str "my-bbb-wf"), ("namespace", Val.str "ns")]),
  ("status", Val.map [("startedAt", Val.str "2020-01-02T00:00:00Z"),
                      ("phase", Val.str "Succeeded")])]

/-- An execution in the same namespace whose name does not contain the
addon's name and which has no status block yet. -/
def wfUnrelated : Val := Val.map [
  ("metadata", Val.map [("name", Val.str "other"), ("namespace", Val.str "ns")])]

/-- Addon context whose recorded checksum (`addon.Status.Checksum`) is the
current checksum `bbb` of the newer execution. -/
def ctxChecksumB : AddonCtx := { name := "my", ns := "ns", checksum := "bbb", pkgVersion := "v1.0.2" }

/-- Addon context whose recorded checksum (`addon.Status.Checksum`) is the
superseded checksum `aaa` of the older execution. -/
def ctxChecksumA : AddonCtx := { name := "my", ns := "ns", checksum := "aaa", pkgVersion := "v1.0.2" }

/-- C1, counterexample.  The claim instantiates its scenario with "the
current checksum is B": taking `addon.Status.Checksum = "bbb"` (the checksum
the most-recent execution is named with), the resolver takes the no-action
branch — the most-recent execution's name *does* contain that checksum — so
the `aaa`-named Succeeded execution is NOT deleted and `deletedAny` is
`false`, not `true` as the claim requires. -/
theorem C1_counterexample_current_checksum_keeps_stale_workflow :
    deleteCollisionWorkflows ctxChecksumB [wfOldA, wfNewB]
      = Res.ok (false, [wfOldA, wfNewB]) := rfl

/-- C1, amended.  The single checksum the Collision Resolver consults is
`addon.Status.Checksum`; the old and the "current" checksum of the claim are
this one field.  Whenever the most-recent correlated execution's name does
not contain `addon.Status.Checksum`, the resolver deletes every listed
execution whose name contains `addon.Status.Checksum` and whose phase is not
Pending, and no others: any stored execution that does not share
(namespace, name) with such a stale listed execution survives — in
particular every Pending execution and every execution whose name lacks the
checksum.  `deletedAny` is true iff at least one listed execution satisfied
the deletion condition.  In the A/B scenario the `aaa`-named Succeeded
execution is deleted with `deletedAny = true` exactly when the addon still
records the superseded checksum A (see the witness); a Pending `aaa`-named
execution is never deleted (second scenario of the witness). -/
theorem C1_stale_cleanup_amended (ctx : AddonCtx) (store : List Val) (mr : Val)
    (hscan : scanMostRecent ctx.name (listNs store ctx.ns) timeZeroEnc none
      = Res.ok (ScanOut.done (some mr)))
    (hmr : goContains (getName mr) ctx.checksum = false)
    (hstatus : ∀ w ∈ listNs store ctx.ns, ∃ st ph,
      contentLookup w "status" = some (Val.map st) ∧
      lookupStr st "phase" = some (Val.str ph)) :
    ∃ s', deleteCollisionWorkflows ctx store
        = Res.ok ((listNs store ctx.ns).any (staleCond ctx), s')
      ∧ (∀ w' ∈ s', w' ∈ store)
      ∧ (∀ w ∈ listNs store ctx.ns, staleCond ctx w = true →
          ∀ w' ∈ s', (getNamespaceW w' == ctx.ns && getName w' == getName w) = false)
      ∧ (∀ w' ∈ store, (∀ w ∈ listNs store ctx.ns, staleCond ctx w = true →
          (getNamespaceW w' == ctx.ns && getName w' == getName w) = false) → w' ∈ s')
      ∧ ((listNs store ctx.ns).any (staleCond ctx) = true ↔
          ∃ w ∈ listNs store ctx.ns, staleCond ctx w = true) := by
  rcases deleteStaleLoop_spec ctx (listNs store ctx.ns) store false hstatus with
    ⟨s', hrun, hsub, hdel, hpres⟩
  refine ⟨s', ?_, hsub, hdel, hpres, List.any_eq_true⟩
  simp only [deleteCollisionWorkflows, hscan, hmr]
  simpa using hrun

/-- C1, witness for the amended theorem.  First scenario: with the addon
still recording checksum `aaa`, the resolver deletes the stale `aaa`-named
Succeeded execution (no workflow with its name survives in the namespace)
and reports `deletedAny = true`, while the `bbb`-named execution survives.
Second scenario: when the `aaa`-named execution is Pending instead, it is
never deleted — the resolver reports `deletedAny = false` and returns the
store unchanged. -/
theorem C1_stale_cleanup_amended_witness :
    (∃ s', deleteCollisionWorkflows ctxChecksumA [wfOldA, wfNewB]
        = Res.ok ((listNs [wfOldA, wfNewB] ctxChecksumA.ns).any (staleCond ctxChecksumA), s')
      ∧ (∀ w' ∈ s', w' ∈ [wfOldA, wfNewB])
      ∧ (∀ w ∈ listNs [wfOldA, wfNewB] ctxChecksumA.ns, staleCond ctxChecksumA w = true →
          ∀ w' ∈ s', (getNamespaceW w' == ctxChecksumA.ns && getName w' == getName w) = false)
      ∧ (∀ w' ∈ [wfOldA, wfNewB],
          (∀ w ∈ listNs [wfOldA, wfNewB] ctxChecksumA.ns, staleCond ctxChecksumA w = true →
            (getNamespaceW w' == ctxChecksumA.ns && getName w' == getName w) = false) → w' ∈ s')
      ∧ ((listNs [wfOldA, wfNewB] ctxChecksumA.ns).any (staleCond ctxChecksumA) = true ↔
          ∃ w ∈ listNs [wfOldA, wfNewB] ctxChecksumA.ns, staleCond ctxChecksumA w = true))
    ∧ (∃ s', deleteCollisionWorkflows ctxChecksumA [wfOldAPending, wfNewB]
        = Res.ok ((listNs [wfOldAPending, wfNewB] ctxChecksumA.ns).any (staleCond ctxChecksumA), s')
      ∧ (∀ w' ∈ s', w' ∈ [wfOldAPending, wfNewB])
      ∧ (∀ w ∈ listNs [wfOldAPending, wfNewB] ctxChecksumA.ns, staleCond ctxChecksumA w = true →
          ∀ w' ∈ s', (getNamespaceW w' == ctxChecksumA.ns && getName w' == getName w) = false)
      ∧ (∀ w' ∈ [wfOldAPending, wfNewB],
          (∀ w ∈ listNs [wfOldAPending, wfNewB] ctxChecksumA.ns, staleCond ctxChecksumA w = true →
            (getNamespaceW w' == ctxChecksumA.ns && getName w' == getName w) = false) → w' ∈ s')
      ∧ ((listNs [wfOldAPending, wfNewB] ctxChecksumA.ns).any (staleCond ctxChecksumA) = true ↔
          ∃ w ∈ listNs [wfOldAPending, wfNewB] ctxChecksumA.ns, staleCond ctxChecksumA w = true))
    ∧ deleteCollisionWorkflows ctxChecksumA [wfOldAPending, wfNewB]
        = Res.ok (false, [wfOldAPending, wfNewB]) := by
  refine ⟨C1_stale_cleanup_amended ctxChecksumA [wfOldA, wfNewB] wfNewB rfl rfl ?_,
    C1_stale_cleanup_amended ctxChecksumA [wfOldAPending, wfNewB] wfNewB rfl rfl ?_, rfl⟩
  · intro w hw
    have hw' : w ∈ [wfOldA, wfNewB] := hw
    rcases List.mem_cons.mp hw' with h | h
    · subst h
      exact ⟨[("startedAt", Val.str "2020-01-01T00:00:00Z"), ("phase", Val.str "Succeeded")],
        "Succeeded", rfl, rfl⟩
    · have h₂ : w = wfNewB := List.mem_singleton.mp h
      subst h₂
      exact ⟨[("startedAt", Val.str "2020-01-02T00:00:00Z"), ("phase", Val.str "Succeeded")],
        "Succeeded", rfl, rfl⟩
  · intro w hw
    have hw' : w ∈ [wfOldAPending, wfNewB] := hw
    rcases List.mem_cons.mp hw' with h | h
    · subst h
      exact ⟨[("startedAt", Val.str "2020-01-01T00:00:00Z"), ("phase", Val.str "Pending")],
        "Pending", rfl, rfl⟩
    · have h₂ : w = wfNewB := List.mem_singleton.mp h
      subst h₂
      exact ⟨[("startedAt", Val.str "2020-01-02T00:00:00Z"), ("phase", Val.str "Succeeded")],
        "Succeeded", rfl, rfl⟩

/-- C10: the deletion pass of `deleteCollisionWorkflows` iterates over every
execution listed in the namespace and reads `status` / `status.phase` through
unchecked type assertions; the early return for a missing status block only
guards executions whose name contains the addon's name.  With an unrelated,
statusless execution (`wfUnrelated`, name "other") in the namespace the pass
aborts via a failed type assertion (`Res.panic`, not an error value), while
the same call without the unrelated execution returns normally. -/
theorem C10_deletion_pass_panics_on_unrelated_statusless_workflow :
    deleteCollisionWorkflows ctxChecksumA [wfNewB, wfUnrelated] = Res.panic ∧
    deleteCollisionWorkflows ctxChecksumA [wfNewB] = Res.ok (false, [wfNewB]) :=
  ⟨rfl, rfl⟩

/-- `parse` (lines 253-285), taking the `data` document that `yaml.Unmarshal`
produced from the template body: builds the workflow content with the
Workflow kind/group/version, the addon's namespace and the argument name,
requires a top-level `spec` (error otherwise), and defaults
`spec.ttlSecondsAfterFinished` to `int64(259200)` when it reads back as nil.
The unchecked `spec.(map[string]interface{})` assertion panics when `spec`
holds a non-map value. -/
def wfContentInit (ns nm : String) : List (String × Val) :=
  [("apiVersion", Val.str "argoproj.io/v1alpha1"), ("kind", Val.str "Workflow"),
   ("metadata", Val.map [("namespace", Val.str ns), ("name", Val.str nm)])]

def parse (data : List (String × Val)) (ns nm : String) : Res (List (String × Val)) :=
  let content := wfContentInit ns nm
  match lookupStr data "spec" with
  | none => Res.err "invalid workflow, missing spec"
  | some (Val.map sp) =>
    let sp' := if isNilV (lookupStr sp "ttlSecondsAfterFinished")
               then setKey sp "ttlSecondsAfterFinished" (Val.int 259200)
               else sp
    Res.ok (setKey content "spec" (Val.map sp'))
  | some _ => Res.panic

/-- C3: for every parsed template document with a `spec` map, `parse` yields a
rendered job whose `spec.ttlSecondsAfterFinished` is 259200 when the field was
absent (nil), and is the template's own value — including `0` — whenever the
template specifies an explicit (non-null) value. -/
theorem C3_ttl_default_and_preservation (data : List (String × Val)) (ns nm : String)
    (sp : List (String × Val)) (hsp : lookupStr data "spec" = some (Val.map sp)) :
    (isNilV (lookupStr sp "ttlSecondsAfterFinished") = true →
      ∃ c, parse data ns nm = Res.ok c ∧
        nestedFieldNoCopy c ["spec", "ttlSecondsAfterFinished"]
          = Nested.found (Val.int 259200)) ∧
    (∀ v, lookupStr sp "ttlSecondsAfterFinished" = some v → v ≠ Val.null →
      ∃ c, parse data ns nm = Res.ok c ∧
        nestedFieldNoCopy c ["spec", "ttlSecondsAfterFinished"] = Nested.found v) := by
  constructor
  · intro hnil
    have hp : parse data ns nm = Res.ok (setKey (wfContentInit ns nm) "spec"
        (Val.map (setKey sp "ttlSecondsAfterFinished" (Val.int 259200)))) := by
      simp only [parse, hsp, hnil, if_true]
    exact ⟨_, hp, by simp [nestedFieldNoCopy, lookupStr_setKey_self]⟩
  · intro v hv hvn
    have hnil : isNilV (lookupStr sp "ttlSecondsAfterFinished") = false := by
      rw [hv]; cases v <;> first | rfl | exact absurd rfl hvn
    have hp : parse data ns nm = Res.ok (setKey (wfContentInit ns nm) "spec" (Val.map sp)) := by
      simp only [parse, hsp, hnil, Bool.false_eq_true, if_false]
    exact ⟨_, hp, by simp [nestedFieldNoCopy, lookupStr_setKey_self, hv]⟩

/-- C3 witness: a template without `ttlSecondsAfterFinished` renders with
259200; a template with the explicit value `0` keeps `0`. -/
theorem C3_ttl_default_and_preservation_witness :
    (∃ c, parse [("spec", Val.map [])] "ns1" "wf1" = Res.ok c ∧
      nestedFieldNoCopy c ["spec", "ttlSecondsAfterFinished"]
        = Nested.found (Val.int 259200)) ∧
    (∃ c, parse [("spec", Val.map [("ttlSecondsAfterFinished", Val.int 0)])] "ns1" "wf1"
        = Res.ok c ∧
      nestedFieldNoCopy c ["spec", "ttlSecondsAfterFinished"] = Nested.found (Val.int 0)) :=
  ⟨(C3_ttl_default_and_preservation [("spec", Val.map [])] "ns1" "wf1" [] rfl).1 rfl,
   (C3_ttl_default_and_preservation [("spec", Val.map [("ttlSecondsAfterFinished", Val.int 0)])]
      "ns1" "wf1" [("ttlSecondsAfterFinished", Val.int 0)] rfl).2 (Val.int 0) rfl
      (fun h => Val.noConfusion h)⟩

/-- Modelled from the spec: the context struct of the addon parameter set.
Its declaring file is not among the sources (only its generated
copy-constructor is); per the spec it declares exactly two string-typed
fields, with serialization names `clusterName` and `clusterRegion`, in this
order, followed by the non-string `AdditionalConfigs` open map
(`map[string]FlexString`), which the reflection loop of
`configureGlobalWFParameters` skips because its kind is not `reflect.String`. -/
structure ClusterContext where
  clusterName : String
  clusterRegion : String
  additionalConfigs : List (String × String)

/-- `addon.Spec.Params`: the namespace parameter, the context struct, and the
top-level open data map (`map[string]FlexString`). -/
structure AddonParams where
  ns : String
  context : ClusterContext
  data : List (String × String)

/-- One `{name: ..., value: ...}` entry as appended by
`configureGlobalWFParameters`. -/
def paramEntry (nm v : String) : Val :=
  Val.map [("name", Val.str nm), ("value", Val.str v)]

/-- Outcome of `configureGlobalWFParameters`: `ok` is the `true` return with
the mutated workflow content, `fail` the `false` return (the caller turns it
into the parameter-injection failure), `panic` an aborted run. -/
inductive InjectOut where
  | ok (content : List (String × Val))
  | fail
  | panic

/-- The parameter entries appended by `configureGlobalWFParameters`
(lines 104-143), in order: the namespace entry, the string-typed context
struct fields in declaration order under their serialization names, the
context's AdditionalConfigs entries, and the data entries. -/
def appendedParams (params : AddonParams) : List Val :=
  [paramEntry "namespace" params.ns]
  ++ [paramEntry "clusterName" params.context.clusterName,
      paramEntry "clusterRegion" params.context.clusterRegion]
  ++ params.context.additionalConfigs.map (fun kv => paramEntry kv.1 kv.2)
  ++ params.data.map (fun kv => paramEntry kv.1 kv.2)

/-- `configureGlobalWFParameters` (lines 86-151).  The `spec` read uses a
checked assertion (`, _`), so a missing or non-map `spec` leaves a nil map
whose subsequent write panics; `spec["arguments"]` and
`arguments["parameters"]` are ensured when nil and then read through
unchecked type assertions (panic on wrong shape); the rebuilt parameter
slice is written back with `unstructured.SetNestedSlice`, whose error is the
`false` return. -/
def configureGlobalWFParameters (params : AddonParams) (content : List (String × Val)) :
    InjectOut :=
  match lookupStr content "spec" with
  | some (Val.map sp) =>
    let argsV := lookupStr sp "arguments"
    match (if isNilV argsV then some ([] : List (String × Val)) else
            match argsV with
            | some (Val.map a) => some a
            | _ => none) with
    | none => InjectOut.panic
    | some args =>
      let parsV := lookupStr args "parameters"
      match (if isNilV parsV then some ([] : List Val) else
              match parsV with
              | some (Val.list ps) => some ps
              | _ => none) with
      | none => InjectOut.panic
      | some wfParams =>
        let wfParams' := wfParams ++ appendedParams params
        let args₁ := if isNilV parsV then setKey args "parameters" (Val.list []) else args
        let sp₁ := setKey sp "arguments" (Val.map args₁)
        let content₁ := setKey content "spec" (Val.map sp₁)
        match setNestedFieldGo content₁ (Val.list wfParams') ["spec", "arguments", "parameters"] with
        | Res.ok c => InjectOut.ok c
        | Res.err _ => InjectOut.fail
        | Res.panic => InjectOut.panic
  | _ => InjectOut.panic

theorem setNestedFieldGo_spec_args_params (content sp args₁ : List (String × Val)) (v : Val) :
    setNestedFieldGo (setKey content "spec" (Val.map (setKey sp "arguments" (Val.map args₁))))
        v ["spec", "arguments", "parameters"]
      = Res.ok (setKey (setKey content "spec" (Val.map (setKey sp "arguments" (Val.map args₁))))
          "spec" (Val.map (setKey (setKey sp "arguments" (Val.map args₁)) "arguments"
            (Val.map (setKey args₁ "parameters" v))))) := by
  simp [setNestedFieldGo, lookupStr_setKey_self]

/-- A parameter set used for concrete runs of the injector. -/
def emptyAddonParams : AddonParams :=
  { ns := "ns1",
    context := { clusterName := "c1", clusterRegion := "us-west-2", additionalConfigs := [] },
    data := [] }

/-- A rendered job with a wrong-shaped `spec.arguments` (a string). -/
def wfBadArguments : List (String × Val) := [("spec", Val.map [("arguments", Val.str "bad")])]

/-- A rendered job with a wrong-shaped `spec.arguments.parameters` (a string). -/
def wfBadParameterList : List (String × Val) :=
  [("spec", Val.map [("arguments", Val.map [("parameters", Val.str "bad")])])]

/-- C8, counterexample: on a rendered job with a wrong-shaped value at
`spec.arguments` the Parameter Injector does not return the failure value; it
aborts via the unchecked `spec["arguments"].(map[string]interface{})` type
assertion. -/
theorem C8_counterexample_wrong_shape_aborts :
    configureGlobalWFParameters emptyAddonParams wfBadArguments = InjectOut.panic := rfl

/-- C8, amended: a wrong-shaped (non-nil, non-map) value at `spec.arguments`,
or a wrong-shaped (non-nil, non-slice) value at `spec.arguments.parameters`,
makes `configureGlobalWFParameters` abort via a failed type assertion rather
than return the `ParameterInjectionError` failure value; the failure value
(the `false` return from a failed write-back, which `Install` would surface
as the Failed phase) is never produced, because once the shape assertions
pass, `SetNestedSlice` cannot fail on the ensured map structure. -/
theorem C8_injector_amended :
    (∀ params content sp v, lookupStr content "spec" = some (Val.map sp) →
      lookupStr sp "arguments" = some v → v ≠ Val.null → (∀ a, v ≠ Val.map a) →
      configureGlobalWFParameters params content = InjectOut.panic)
    ∧ (∀ params content sp args v, lookupStr content "spec" = some (Val.map sp) →
      lookupStr sp "arguments" = some (Val.map args) →
      lookupStr args "parameters" = some v → v ≠ Val.null → (∀ l, v ≠ Val.list l) →
      configureGlobalWFParameters params content = InjectOut.panic)
    ∧ (∀ params content, configureGlobalWFParameters params content ≠ InjectOut.fail) := by
  refine ⟨?_, ?_, ?_⟩
  · intro params content sp v hsp harg hnull hmap
    have hnil : isNilV (some v) = false := by
      cases v
      · exact absurd rfl hnull
      all_goals rfl
    cases v with
    | null => exact absurd rfl hnull
    | map a => exact absurd rfl (hmap a)
    | str sv => simp [configureGlobalWFParameters, hsp, harg, isNilV]
    | int n => simp [configureGlobalWFParameters, hsp, harg, isNilV]
    | bool b => simp [configureGlobalWFParameters, hsp, harg, isNilV]
    | list l => simp [configureGlobalWFParameters, hsp, harg, isNilV]
  · intro params content sp args v hsp harg hpar hnull hlist
    cases v with
    | null => exact absurd rfl hnull
    | list l => exact absurd rfl (hlist l)
    | str sv => simp [configureGlobalWFParameters, hsp, harg, hpar, isNilV]
    | int n => simp [configureGlobalWFParameters, hsp, harg, hpar, isNilV]
    | bool b => simp [configureGlobalWFParameters, hsp, harg, hpar, isNilV]
    | map a => simp [configureGlobalWFParameters, hsp, harg, hpar, isNilV]
  · intro params content
    simp only [configureGlobalWFParameters]
    split
    · split
      · intro h; cases h
      · split
        · intro h; cases h
        · rw [setNestedFieldGo_spec_args_params]
          intro h; cases h
    · intro h; cases h

/-- C8, witness for the amended theorem at concrete wrong-shaped jobs. -/
theorem C8_injector_amended_witness :
    configureGlobalWFParameters emptyAddonParams wfBadArguments = InjectOut.panic ∧
    configureGlobalWFParameters emptyAddonParams wfBadParameterList = InjectOut.panic ∧
    configureGlobalWFParameters emptyAddonParams wfBadArguments ≠ InjectOut.fail :=
  ⟨C8_injector_amended.1 emptyAddonParams wfBadArguments [("arguments", Val.str "bad")]
      (Val.str "bad") rfl rfl (fun h => Val.noConfusion h) (fun _ h => Val.noConfusion h),
   C8_injector_amended.2.1 emptyAddonParams wfBadParameterList
      [("arguments", Val.map [("parameters", Val.str "bad")])] [("parameters", Val.str "bad")]
      (Val.str "bad") rfl rfl rfl (fun h => Val.noConfusion h) (fun _ h => Val.noConfusion h),
   C8_injector_amended.2.2 emptyAddonParams wfBadArguments⟩

/-- Statement helper: does a parameter entry carry `name = k`? -/
def entryNameIs (k : String) (e : Val) : Bool :=
  match contentLookup e "name" with
  | some (Val.str s) => s == k
  | _ => false

theorem entryNameIs_paramEntry (k a b : String) :
    entryNameIs k (paramEntry a b) = (a == k) := by
  simp [entryNameIs, paramEntry, contentLookup, lookupStr]

/-- C4: for every addon parameter set and every rendered job with an existing
`spec.arguments.parameters` list, the injector appends — in this order — the
namespace entry, one entry per string-typed context field in declaration
order under its serialization name (`clusterName`, then `clusterRegion`; the
non-string AdditionalConfigs field is skipped), then the AdditionalConfigs
entries, then the data entries; and each key of the two open maps yields
exactly as many entries as it has bindings (exactly one per key, since Go
maps bind each key once).  Iteration order inside the two map segments is the
association-list order of this embedding; the contract leaves it
unconstrained. -/
theorem C4_parameter_injection_order (params : AddonParams)
    (content sp args : List (String × Val)) (ps : List Val)
    (hsp : lookupStr content "spec" = some (Val.map sp))
    (ha : lookupStr sp "arguments" = some (Val.map args))
    (hps : lookupStr args "parameters" = some (Val.list ps)) :
    ∃ c, configureGlobalWFParameters params content = InjectOut.ok c
      ∧ nestedFieldNoCopy c ["spec", "arguments", "parameters"]
          = Nested.found (Val.list (ps
              ++ [paramEntry "namespace" params.ns,
                  paramEntry "clusterName" params.context.clusterName,
                  paramEntry "clusterRegion" params.context.clusterRegion]
              ++ params.context.additionalConfigs.map (fun kv => paramEntry kv.1 kv.2)
              ++ params.data.map (fun kv => paramEntry kv.1 kv.2)))
      ∧ ∀ k, (params.context.additionalConfigs.map (fun kv => paramEntry kv.1 kv.2)
              ++ params.data.map (fun kv => paramEntry kv.1 kv.2)).countP (entryNameIs k)
            = (params.context.additionalConfigs ++ params.data).countP (fun kv => kv.1 == k) := by
  have hrun : configureGlobalWFParameters params content
      = InjectOut.ok (setKey (setKey content "spec" (Val.map (setKey sp "arguments" (Val.map args))))
          "spec" (Val.map (setKey (setKey sp "arguments" (Val.map args)) "arguments"
            (Val.map (setKey args "parameters" (Val.list (ps ++ appendedParams params))))))) := by
    simp only [configureGlobalWFParameters, hsp, ha, hps, isNilV, Bool.false_eq_true, if_false,
      setNestedFieldGo_spec_args_params]
  refine ⟨_, hrun, ?_, ?_⟩
  · simp only [nestedFieldNoCopy, lookupStr_setKey_self, appendedParams]
    simp [List.append_assoc]
  · intro k
    simp only [List.countP_append, List.countP_map]
    have h₁ : ∀ l : List (String × String),
        l.countP (entryNameIs k ∘ fun kv => paramEntry kv.1 kv.2)
          = l.countP (fun kv => kv.1 == k) := by
      intro l
      apply List.countP_congr
      intro kv _
      simp [Function.comp, entryNameIs_paramEntry]
    rw [h₁, h₁]

/-- The claim's concrete parameter set, with one extra binding in each open
map. -/
def paramsC4 : AddonParams :=
  { ns := "ns1",
    context := { clusterName := "c1", clusterRegion := "us-west-2",
                 additionalConfigs := [("acKey", "acVal")] },
    data := [("dKey", "dVal")] }

/-- A rendered job with an existing empty `spec.arguments.parameters` list. -/
def wfEmptyParameterList : List (String × Val) :=
  [("spec", Val.map [("arguments", Val.map [("parameters", Val.list [])])])]

/-- C4, witness: for parameters {namespace: ns1, context: {clusterName: c1,
clusterRegion: us-west-2}} the first three appended entries are exactly the
namespace, clusterName and clusterRegion entries, and each open-map key
appears exactly once. -/
theorem C4_parameter_injection_order_witness :
    ∃ c, configureGlobalWFParameters paramsC4 wfEmptyParameterList = InjectOut.ok c
      ∧ nestedFieldNoCopy c ["spec", "arguments", "parameters"]
          = Nested.found (Val.list (([] : List Val)
              ++ [paramEntry "namespace" paramsC4.ns,
                  paramEntry "clusterName" paramsC4.context.clusterName,
                  paramEntry "clusterRegion" paramsC4.context.clusterRegion]
              ++ paramsC4.context.additionalConfigs.map (fun kv => paramEntry kv.1 kv.2)
              ++ paramsC4.data.map (fun kv => paramEntry kv.1 kv.2)))
      ∧ ∀ k, (paramsC4.context.additionalConfigs.map (fun kv => paramEntry kv.1 kv.2)
              ++ paramsC4.data.map (fun kv => paramEntry kv.1 kv.2)).countP (entryNameIs k)
            = (paramsC4.context.additionalConfigs ++ paramsC4.data).countP (fun kv => kv.1 == k) :=
  C4_parameter_injection_order paramsC4 wfEmptyParameterList
    [("arguments", Val.map [("parameters", Val.list [])])] [("parameters", Val.list [])] []
    rfl rfl rfl

/-- `addonmgrv1alpha1.ApplicationAssemblyPhase` values used by the workflow
lifecycle. -/
inductive Phase where
  | Pending
  | Succeeded
  | Failed
deriving DecidableEq

/-- The status translation of `submit` (lines 241-250): read `status` with a
checked map assertion, compare `status["phase"]` against the strings
"Succeeded" and "Failed" (interface equality, so only a string value can
match), defaulting to Pending. -/
def workflowPhase (workflow : Val) : Phase :=
  match contentLookup workflow "status" with
  | some (Val.map st) =>
    match lookupStr st "phase" with
    | some (Val.str "Succeeded") => Phase.Succeeded
    | some (Val.str "Failed") => Phase.Failed
    | _ => Phase.Pending
  | _ => Phase.Pending

/-- C9: status translation is a total function of the backend phase:
"Succeeded" maps to Succeeded, "Failed" to Failed, and any other phase — any
other string, a null phase, an absent phase, or an absent/malformed status
block — maps to Pending. -/
theorem C9_status_translation_total (workflow : Val) :
    (∀ st, contentLookup workflow "status" = some (Val.map st) →
      (lookupStr st "phase" = some (Val.str "Succeeded") →
        workflowPhase workflow = Phase.Succeeded)
      ∧ (lookupStr st "phase" = some (Val.str "Failed") →
        workflowPhase workflow = Phase.Failed)
      ∧ (∀ p, lookupStr st "phase" = some (Val.str p) → p ≠ "Succeeded" → p ≠ "Failed" →
        workflowPhase workflow = Phase.Pending)
      ∧ (lookupStr st "phase" = none → workflowPhase workflow = Phase.Pending)
      ∧ (lookupStr st "phase" = some Val.null → workflowPhase workflow = Phase.Pending))
    ∧ ((∀ st, contentLookup workflow "status" ≠ some (Val.map st)) →
      workflowPhase workflow = Phase.Pending) := by
  constructor
  · intro st hst
    refine ⟨?_, ?_, ?_, ?_, ?_⟩
    · intro hp; simp [workflowPhase, hst, hp]
    · intro hp; simp [workflowPhase, hst, hp]
    · intro p hp hS hF
      simp only [workflowPhase, hst, hp]
      split
      · rename_i heq; exact absurd (Val.str.inj (Option.some.inj heq)) hS
      · rename_i heq; exact absurd (Val.str.inj (Option.some.inj heq)) hF
      · rfl
    · intro hp; simp [workflowPhase, hst, hp]
    · intro hp; simp [workflowPhase, hst, hp]
  · intro hst
    cases hw : contentLookup workflow "status" with
    | none => simp [workflowPhase, hw]
    | some v =>
      cases v with
      | map m => exact absurd hw (hst m)
      | null => simp [workflowPhase, hw]
      | str s => simp [workflowPhase, hw]
      | int n => simp [workflowPhase, hw]
      | bool b => simp [workflowPhase, hw]
      | list l => simp [workflowPhase, hw]

/-- A workflow whose `status.phase` is the given string. -/
def wfWithPhase (p : String) : Val :=
  Val.map [("status", Val.map [("phase", Val.str p)])]

/-- A workflow whose `status.phase` is an explicit null. -/
def wfNilPhase : Val := Val.map [("status", Val.map [("phase", Val.null)])]

/-- A workflow without a status block. -/
def wfNoStatus : Val := Val.map []

/-- C9, witness: the enumerated backend phases
{"Succeeded","Failed","","unknown-string",nil phase,absent status} map to
{Succeeded, Failed, Pending, Pending, Pending, Pending}. -/
theorem C9_status_translation_total_witness :
    workflowPhase (wfWithPhase "Succeeded") = Phase.Succeeded ∧
    workflowPhase (wfWithPhase "Failed") = Phase.Failed ∧
    workflowPhase (wfWithPhase "") = Phase.Pending ∧
    workflowPhase (wfWithPhase "unknown-string") = Phase.Pending ∧
    workflowPhase wfNilPhase = Phase.Pending ∧
    workflowPhase wfNoStatus = Phase.Pending :=
  ⟨((C9_status_translation_total (wfWithPhase "Succeeded")).1 _ rfl).1 rfl,
   ((C9_status_translation_total (wfWithPhase "Failed")).1 _ rfl).2.1 rfl,
   ((C9_status_translation_total (wfWithPhase "")).1 _ rfl).2.2.1 "" rfl
     (by decide) (by decide),
   ((C9_status_translation_total (wfWithPhase "unknown-string")).1 _ rfl).2.2.1
     "unknown-string" rfl (by decide) (by decide),
   ((C9_status_translation_total wfNilPhase).1 _ rfl).2.2.2.2 rfl,
   (C9_status_translation_total wfNoStatus).2 (fun _ h => Option.noConfusion h)⟩

/-- `findWorkflowByName` / the dynamic client `Get`: the first stored
workflow with the given namespace and name; `none` is the IsNotFound
outcome. -/
def findInStore (store : List Val) (ns nm : String) : Option Val :=
  store.find? (fun w => getNamespaceW w == ns && getName w == nm)

/-- The content of an unstructured object (`UnstructuredContent`). -/
def contentOf (w : Val) : List (String × Val) :=
  match w with
  | Val.map m => m
  | _ => []

/-- Set `metadata.<field>` the way the unstructured accessors do: create the
metadata map when absent; a wrong-typed metadata makes the underlying
`SetNestedField` error, which the accessor discards, leaving the content
unchanged. -/
def setMetaField (m : List (String × Val)) (field : String) (v : Val) : List (String × Val) :=
  match lookupStr m "metadata" with
  | some (Val.map md) => setKey m "metadata" (Val.map (setKey md field v))
  | none => setKey m "metadata" (Val.map [(field, v)])
  | some _ => m

/-- The owner reference attached in submit's create branch:
`SetControllerReference` wires a controller reference to the addon and the
loop over the references then flips `Controller` to false for the addon
kind. -/
def addonOwnerRef (ctx : AddonCtx) : Val :=
  Val.map [("apiVersion", Val.str "addonmgr.orkaproj.io/v1alpha1"),
           ("kind", Val.str "Addon"),
           ("name", Val.str ctx.name),
           ("controller", Val.bool false),
           ("blockOwnerDeletion", Val.bool true)]

/-- The Workflow object persisted by submit's create branch (lines 198-233):
the rendered content (scheme.Convert copies the proxy), with the Workflow
kind/group/version forced, namespace and name set from the rendered job, and
the non-controlling addon owner reference attached. -/
def createdWorkflow (ctx : AddonCtx) (wp : Val) : Val :=
  let m := contentOf wp
  let m₁ := setKey (setKey m "apiVersion" (Val.str "argoproj.io/v1alpha1"))
    "kind" (Val.str "Workflow")
  let m₂ := setMetaField m₁ "namespace" (Val.str (getNamespaceW wp))
  let m₃ := setMetaField m₂ "name" (Val.str (getName wp))
  Val.map (setMetaField m₃ "ownerReferences" (Val.list [addonOwnerRef ctx]))

/-- `submit` (lines 178-251): look up the execution by (namespace, name);
when present, resolve collisions (returning Pending when anything was
deleted), otherwise fetch it again and translate its status; when absent,
create the converted workflow (the recorder event carries no state and is
not modelled) and return Pending. -/
def submit (ctx : AddonCtx) (store : List Val) (wp : Val) : Res (Phase × List Val) :=
  match findInStore store (getNamespaceW wp) (getName wp) with
  | some wfv1 =>
    match deleteCollisionWorkflows ctx store with
    | Res.err e => Res.err e
    | Res.panic => Res.panic
    | Res.ok (true, s') => Res.ok (Phase.Pending, s')
    | Res.ok (false, s') =>
      match findInStore s' (getNamespaceW wfv1) (getName wfv1) with
      | none => Res.err "could not find workflow"
      | some workflow => Res.ok (workflowPhase workflow, s')
  | none =>
    Res.ok (Phase.Pending, store ++ [createdWorkflow ctx wp])

theorem contentLookup_contentOf (w : Val) (k : String) :
    contentLookup w k = lookupStr (contentOf w) k := by
  cases w <;> rfl

theorem lookupStr_setMetaField_other (m : List (String × Val)) (f : String) (v : Val)
    (k : String) (hk : k ≠ "metadata") :
    lookupStr (setMetaField m f v) k = lookupStr m k := by
  unfold setMetaField
  split
  · exact lookupStr_setKey_other _ _ _ _ hk
  · exact lookupStr_setKey_other _ _ _ _ hk
  · rfl

theorem createdWorkflow_status (ctx : AddonCtx) (wp : Val)
    (hst : contentLookup wp "status" = none) :
    contentLookup (createdWorkflow ctx wp) "status" = none := by
  have h₀ : lookupStr (contentOf wp) "status" = none := by
    rw [← contentLookup_contentOf]; exact hst
  simp only [createdWorkflow, contentLookup]
  rw [lookupStr_setMetaField_other _ _ _ _ (by decide),
      lookupStr_setMetaField_other _ _ _ _ (by decide),
      lookupStr_setMetaField_other _ _ _ _ (by decide),
      lookupStr_setKey_other _ _ _ _ (by decide),
      lookupStr_setKey_other _ _ _ _ (by decide), h₀]

theorem createdWorkflow_names (ctx : AddonCtx) (wp : Val) (md : List (String × Val))
    (hmd : lookupStr (contentOf wp) "metadata" = some (Val.map md)) :
    getName (createdWorkflow ctx wp) = getName wp ∧
    getNamespaceW (createdWorkflow ctx wp) = getNamespaceW wp := by
  have hmeta₁ : lookupStr (setKey (setKey (contentOf wp) "apiVersion"
      (Val.str "argoproj.io/v1alpha1")) "kind" (Val.str "Workflow")) "metadata"
      = some (Val.map md) := by
    rw [lookupStr_setKey_other _ _ _ _ (by decide),
        lookupStr_setKey_other _ _ _ _ (by decide), hmd]
  have hn : getName wp = (match lookupStr md "name" with
      | some (Val.str s) => s | _ => "") := by
    simp [getName, getMeta, contentLookup_contentOf, hmd]
  have hns : getNamespaceW wp = (match lookupStr md "namespace" with
      | some (Val.str s) => s | _ => "") := by
    simp [getNamespaceW, getMeta, contentLookup_contentOf, hmd]
  constructor
  · simp only [createdWorkflow, setMetaField, hmeta₁, lookupStr_setKey_self]
    simp [getName, getMeta, contentLookup, lookupStr_setKey_self, lookupStr_setKey]
  · simp only [createdWorkflow, setMetaField, hmeta₁, lookupStr_setKey_self]
    simp [getNamespaceW, getMeta, contentLookup, lookupStr_setKey_self, lookupStr_setKey]

theorem resolver_noop_statusless (ctx : AddonCtx) (w : Val)
    (hst : contentLookup w "status" = none) :
    deleteCollisionWorkflows ctx [w] = Res.ok (false, [w]) := by
  unfold deleteCollisionWorkflows listNs
  cases hns : (getNamespaceW w == ctx.ns) with
  | false => simp [hns, scanMostRecent, List.filter]
  | true =>
    simp only [List.filter, hns]
    cases hc : goContains (getName w) ctx.name with
    | false => simp [scanMostRecent, hc]
    | true => simp [scanMostRecent, hc, hst]

/-- C2: (i) whenever an execution with the rendered job's (namespace, name)
already exists in the store and the Collision Resolver performs no deletion,
`submit` leaves the store unchanged — no new execution — and returns the
translated status of the existing execution; (ii) two sequential `submit`
calls for an unchanged rendered job (no status block, metadata map), starting
from an empty store, create the execution once: the second call finds it,
resolves no collision, returns its translated status (Pending), and the
store still holds exactly one execution with that (namespace, name). -/
theorem C2_submit_idempotency (ctx : AddonCtx) :
    (∀ store wp wf, findInStore store (getNamespaceW wp) (getName wp) = some wf →
      deleteCollisionWorkflows ctx store = Res.ok (false, store) →
      submit ctx store wp = Res.ok (workflowPhase wf, store))
    ∧ (∀ wp md, lookupStr (contentOf wp) "metadata" = some (Val.map md) →
      contentLookup wp "status" = none →
      submit ctx [] wp = Res.ok (Phase.Pending, [createdWorkflow ctx wp])
      ∧ submit ctx [createdWorkflow ctx wp] wp
          = Res.ok (workflowPhase (createdWorkflow ctx wp), [createdWorkflow ctx wp])
      ∧ workflowPhase (createdWorkflow ctx wp) = Phase.Pending
      ∧ List.countP (fun w => getNamespaceW w == getNamespaceW wp
            && getName w == getName wp) [createdWorkflow ctx wp] = 1) := by
  constructor
  · intro store wp wf hfind hres
    have hpred := List.find?_some hfind
    rw [Bool.and_eq_true, beq_iff_eq, beq_iff_eq] at hpred
    simp only [submit, hfind, hres, hpred.1, hpred.2]
  · intro wp md hmd hst
    rcases createdWorkflow_names ctx wp md hmd with ⟨hname, hns⟩
    have hcst := createdWorkflow_status ctx wp hst
    have hfirst : submit ctx [] wp = Res.ok (Phase.Pending, [createdWorkflow ctx wp]) := by
      simp [submit, findInStore, List.find?]
    have hfind₂ : findInStore [createdWorkflow ctx wp] (getNamespaceW wp) (getName wp)
        = some (createdWorkflow ctx wp) := by
      simp [findInStore, List.find?, hname, hns]
    have hphase : workflowPhase (createdWorkflow ctx wp) = Phase.Pending := by
      simp [workflowPhase, hcst]
    refine ⟨hfirst, ?_, hphase, ?_⟩
    · simp only [submit, hfind₂, resolver_noop_statusless ctx _ hcst, hname, hns]
    · simp [List.countP, List.countP.go, hname, hns]

/-- A rendered job (metadata map, no status) keyed like `wfOldA`. -/
def wpRendered : Val := Val.map [
  ("metadata", Val.map [("namespace", Val.str "ns"), ("name", Val.str "my-aaa-wf")]),
  ("spec", Val.map [])]

/-- C2, witness: with the store already holding the execution, `submit`
returns the existing execution's translated status and leaves the store
unchanged; starting from an empty store, two sequential calls create exactly
one execution. -/
theorem C2_submit_idempotency_witness :
    submit ctxChecksumA [wfOldA] wpRendered = Res.ok (workflowPhase wfOldA, [wfOldA]) ∧
    (submit ctxChecksumA [] wpRendered
        = Res.ok (Phase.Pending, [createdWorkflow ctxChecksumA wpRendered])
      ∧ submit ctxChecksumA [createdWorkflow ctxChecksumA wpRendered] wpRendered
          = Res.ok (workflowPhase (createdWorkflow ctxChecksumA wpRendered),
              [createdWorkflow ctxChecksumA wpRendered])
      ∧ workflowPhase (createdWorkflow ctxChecksumA wpRendered) = Phase.Pending
      ∧ List.countP (fun w => getNamespaceW w == getNamespaceW wpRendered
            && getName w == getName wpRendered)
          [createdWorkflow ctxChecksumA wpRendered] = 1) :=
  ⟨(C2_submit_idempotency ctxChecksumA).1 [wfOldA] wpRendered wfOldA rfl rfl,
   (C2_submit_idempotency ctxChecksumA).2 wpRendered
     [("namespace", Val.str "ns"), ("name", Val.str "my-aaa-wf")] rfl rfl⟩

instance : Monad Res where
  pure := Res.ok
  bind := fun r f =>
    match r with
    | Res.ok a => f a
    | Res.err e => Res.err e
    | Res.panic => Res.panic

/-- If the separator is a leading segment of the list, the remainder after
it. -/
def dropSep : List Char → List Char → Option (List Char)
  | [], rest => some rest
  | _ :: _, [] => none
  | s :: sep', c :: rest => if s == c then dropSep sep' rest else none

/-- Worker for `strings.Split`: scan left to right, cutting at each
non-overlapping occurrence of the separator. -/
def splitSepGo (sep : List Char) : Nat → List Char → List Char → List (List Char)
  | 0, acc, s => [acc.reverse ++ s]
  | _ + 1, acc, [] => [acc.reverse]
  | fuel + 1, acc, c :: rest =>
    match dropSep sep (c :: rest) with
    | some rem => acc.reverse :: splitSepGo sep fuel [] rem
    | none => splitSepGo sep fuel (c :: acc) rest

/-- `strings.Split(s, sep)` for a non-empty separator. -/
def goSplit (s sep : String) : List String :=
  (splitSepGo sep.data (s.data.length + 1) [] s.data).map String.mk

/-- Interleave a separator between list elements. -/
def joinSep (sep : List Char) : List (List Char) → List Char
  | [] => []
  | [x] => x
  | x :: rest => x ++ sep ++ joinSep sep rest

/-- `strings.Join(l, sep)`. -/
def goJoin (l : List String) (sep : String) : String :=
  String.mk (joinSep sep.data (l.map String.data))

/-- Byte-wise (here: character-wise) string order, as Go compares strings;
used because `encoding/json` marshals map keys sorted. -/
def charListLe : List Char → List Char → Bool
  | [], _ => true
  | _ :: _, [] => false
  | a :: as, b :: bs => if a == b then charListLe as bs else decide (a < b)

def insertSortedByKey (x : String × Val) : List (String × Val) → List (String × Val)
  | [] => [x]
  | y :: rest =>
    if charListLe x.1.data y.1.data then x :: y :: rest else y :: insertSortedByKey x rest

/-- Sort map entries by key, as the JSON round-trip of `ghodss/yaml.Marshal`
does. -/
def sortByKey : List (String × Val) → List (String × Val)
  | [] => []
  | x :: rest => insertSortedByKey x (sortByKey rest)

/-- Characters the yaml-subset emitter prints without quoting. -/
def plainSafeChar (c : Char) : Bool :=
  c.isAlphanum || c == '-' || c == '.' || c == '_' || c == '/'

/-- Would the scalar read back as a number? -/
def isNumericLit : List Char → Bool
  | '-' :: rest => !rest.isEmpty && rest.all Char.isDigit
  | l => !l.isEmpty && l.all Char.isDigit

/-- Scalars the emitter must double-quote to round-trip as strings. -/
def needsQuote (s : String) : Bool :=
  s.data.isEmpty || !(s.data.all plainSafeChar) || isNumericLit s.data
    || s == "true" || s == "false" || s == "null"

/-- Scalars the subset can double-quote (no quotes, backslashes or
newlines inside). -/
def quotable (s : String) : Bool :=
  s.data.all (fun c => !(c == '"' || c == '\\' || c == '\n'))

/-- Emit one scalar value of the yaml subset. -/
def scalarChars : Val → Res (List Char)
  | Val.str s =>
    if needsQuote s then
      if quotable s then Res.ok ('"' :: s.data ++ ['"'])
      else Res.err "string outside the yaml subset"
    else Res.ok s.data
  | Val.int n => Res.ok (toString n).data
  | Val.bool b => Res.ok (if b then "true".data else "false".data)
  | Val.null => Res.ok "null".data
  | _ => Res.err "not a scalar"

/-- Indentation padding. -/
def pad (n : Nat) : List Char := List.replicate n ' '

/-- Emit the lines of a sorted entry list at the given indentation. -/
def emitEntries : Nat → Nat → List (String × Val) → Res (List (List Char))
  | 0, _, _ => Res.err "fuel exhausted"
  | _ + 1, _, [] => Res.ok []
  | fuel + 1, ind, (k, v) :: rest => do
    let key ← if needsQuote k then
        (if quotable k then Res.ok ('"' :: k.data ++ ['"']) else Res.err "key outside subset")
      else Res.ok k.data
    let lines₁ ← (match v with
      | Val.map [] => Res.ok [pad ind ++ key ++ ": {}".data]
      | Val.map m => do
        let sub ← emitEntries fuel (ind + 2) (sortByKey m)
        Res.ok ((pad ind ++ key ++ [':']) :: sub)
      | Val.list _ => Res.err "lists outside the yaml subset"
      | sc => do
        let cs ← scalarChars sc
        Res.ok [pad ind ++ key ++ ':' :: ' ' :: cs])
    let rest' ← emitEntries fuel ind rest
    Res.ok (lines₁ ++ rest')

/-- `ghodss/yaml.Marshal` on the subset these manifests use: JSON round-trip
(keys sorted), block-style maps, plain or double-quoted scalars, one entry
per line, trailing newline.  The constant fuel only bounds recursion depth
plus entry count; documents beyond it are outside the subset. -/
def yamlMarshal (m : List (String × Val)) : Res String :=
  match m with
  | [] => Res.ok "{}\n"
  | _ => do
    let lines ← emitEntries 10000 0 (sortByKey m)
    Res.ok (String.mk (lines.foldr (fun l acc => l ++ '\n' :: acc) []))

/-- Leading-space count of a line. -/
def lineIndent : List Char → Nat
  | ' ' :: rest => lineIndent rest + 1
  | _ => 0

/-- Split a line at its first colon. -/
def splitAtColon : List Char → Option (List Char × List Char)
  | [] => none
  | ':' :: rest => some ([], rest)
  | c :: rest =>
    match splitAtColon rest with
    | some (k, a) => some (c :: k, a)
    | none => none

/-- Natural-number value of a digit run. -/
def digitsToNat : List Char → Nat → Nat
  | [], acc => acc
  | c :: rest, acc => digitsToNat rest (acc * 10 + (c.toNat - '0'.toNat))

/-- Parse one scalar of the yaml subset (after `key: `). -/
def parseScalar (cs : List Char) : Res Val :=
  if cs == "{}".data then Res.ok (Val.map [])
  else if cs == "null".data then Res.ok Val.null
  else if cs == "true".data then Res.ok (Val.bool true)
  else if cs == "false".data then Res.ok (Val.bool false)
  else match cs with
    | '"' :: rest =>
      match rest.reverse with
      | '"' :: mid =>
        if mid.reverse.all (fun c => !(c == '"' || c == '\\')) then
          Res.ok (Val.str (String.mk mid.reverse))
        else Res.err "escapes outside the yaml subset"
      | _ => Res.err "unterminated quoted scalar"
    | '-' :: rest =>
      if !rest.isEmpty && rest.all Char.isDigit then
        Res.ok (Val.int (-(digitsToNat rest 0 : Int)))
      else Res.ok (Val.str (String.mk cs))
    | _ =>
      if !cs.isEmpty && cs.all Char.isDigit then Res.ok (Val.int (digitsToNat cs 0))
      else Res.ok (Val.str (String.mk cs))

/-- Parse the lines of a block of entries expected at indentation `ind`;
returns the entries and the lines left over (those dedented past `ind`). -/
def parseLines : Nat → List (List Char) → Nat → Res (List (String × Val) × List (List Char))
  | 0, _, _ => Res.err "fuel exhausted"
  | _ + 1, [], _ => Res.ok ([], [])
  | fuel + 1, l :: rest, ind =>
    let li := lineIndent l
    if li < ind then Res.ok ([], l :: rest)
    else if ind < li then Res.err "bad indentation"
    else
      match splitAtColon (l.drop ind) with
      | none => Res.err "line without a colon"
      | some (key, after) =>
        match after with
        | [] =>
          match rest with
          | [] => Res.ok ([(String.mk key, Val.null)], [])
          | r :: _ =>
            if ind < lineIndent r then do
              let (sub, rem) ← parseLines fuel rest (lineIndent r)
              let (entries, rem₂) ← parseLines fuel rem ind
              Res.ok ((String.mk key, Val.map sub) :: entries, rem₂)
            else do
              let (entries, rem₂) ← parseLines fuel rest ind
              Res.ok ((String.mk key, Val.null) :: entries, rem₂)
        | ' ' :: vcs => do
          let v ← parseScalar vcs
          let (entries, rem₂) ← parseLines fuel rest ind
          Res.ok ((String.mk key, v) :: entries, rem₂)
        | _ => Res.err "expected a space after the colon"

/-- `ghodss/yaml.Unmarshal` into a `map[string]interface{}`, on the subset:
empty input leaves the initialized empty map; otherwise the document must be
a block-style map. -/
def yamlUnmarshal (s : String) : Res (List (String × Val)) :=
  let lines := (splitSepGo ['\n'] (s.data.length + 1) [] s.data).filter
    (fun l => !(l.all (· == ' ')))
  match lines with
  | [] => Res.ok []
  | ls =>
    match parseLines (2 * ls.length + 2) ls 0 with
    | Res.ok (entries, []) => Res.ok (Val.map entries |> contentOf)
    | Res.ok (_, _ :: _) => Res.err "trailing lines"
    | Res.err e => Res.err e
    | Res.panic => Res.panic

/-- Modelled from the spec: the fixed group identifier
(`common.AddonGVR().Group`) written into the managed-by label; the `common`
package is not among the sources, the group matching the import path of the
addon API. -/
def addonGroupName : String := "addonmgr.orkaproj.io"

/-- helper mirroring the ensure-then-read pattern on a `NestedMap` copy:
the value of `key` when it is a map, the freshly ensured empty map
otherwise.  (`NestedMap` returns a deep copy, so ensuring the key on the
copy only determines what is read back.) -/
def mapValueOrEmpty (md : List (String × Val)) (key : String) : List (String × Val) :=
  match nestedMapGo md [key] with
  | MapRes.found l => l
  | _ => []

/-- The four label writes of `addDefaultLabelsToResource` (lines 380-383),
in program order. -/
def labelsMerged (ctx : AddonCtx) (labels : List (String × Val)) : List (String × Val) :=
  setKey (setKey (setKey (setKey labels
    "app.kubernetes.io/name" (Val.str ctx.name))
    "app.kubernetes.io/version" (Val.str ctx.pkgVersion))
    "app.kubernetes.io/part-of" (Val.str ctx.name))
    "app.kubernetes.io/managed-by" (Val.str addonGroupName)

/-- `addDefaultLabelsToResource` (lines 364-391): read the metadata map (its
`NestedMap` error is returned; a missing metadata leaves a nil map whose
labels write panics), ensure `labels` on the copy, merge the four default
labels, and write the result back through `SetNestedMap`. -/
def addDefaultLabelsToResource (ctx : AddonCtx) (resource : List (String × Val)) :
    Res (List (String × Val)) :=
  match nestedMapGo resource ["metadata"] with
  | MapRes.typeErr => Res.err "metadata is not a map"
  | MapRes.absent => Res.panic
  | MapRes.found md =>
    match setNestedFieldGo resource (Val.map (labelsMerged ctx (mapValueOrEmpty md "labels")))
        ["metadata", "labels"] with
    | Res.ok r => Res.ok r
    | Res.err e => Res.err e
    | Res.panic => Res.panic

/-- `addRoleAnnotateToResource` (lines 393-420): read (or create, re-reading
afterwards) `spec.template.metadata`, ensure `annotations` on the copy, set
the fixed role annotation key, and write the annotations map back through
`SetNestedMap`; its errors are returned.  When the re-read after a creation
does not find the map, the nil-map ensure write panics. -/
def addRoleAnnotateToResource (resource : List (String × Val)) (role : String) :
    Res (List (String × Val)) :=
  match nestedMapGo resource ["spec", "template", "metadata"] with
  | MapRes.found md =>
    match setNestedFieldGo resource
        (Val.map (setKey (mapValueOrEmpty md "annotations")
          "iam.amazonaws.com/role" (Val.str role)))
        ["spec", "template", "metadata", "annotations"] with
    | Res.ok r => Res.ok r
    | Res.err e => Res.err e
    | Res.panic => Res.panic
  | _ =>
    match setNestedFieldGo resource (Val.map []) ["spec", "template", "metadata"] with
    | Res.ok r₁ =>
      match nestedMapGo r₁ ["spec", "template", "metadata"] with
      | MapRes.found md =>
        match setNestedFieldGo r₁
            (Val.map (setKey (mapValueOrEmpty md "annotations")
              "iam.amazonaws.com/role" (Val.str role)))
            ["spec", "template", "metadata", "annotations"] with
        | Res.ok r => Res.ok r
        | Res.err e => Res.err e
        | Res.panic => Res.panic
      | _ => Res.panic
    | Res.err e => Res.err e
    | Res.panic => Res.panic

/-- The `kind`-string dispatch of `processArtifacts` (line 335). -/
def workloadKindCheck (kind : String) : Bool :=
  kind == "StatefulSet" || kind == "Deployment" || kind == "DaemonSet"
    || kind == "ReplicaSet" || kind == "Service"

/-- The per-document body of the `processArtifacts` loop (lines 327-348,
after `yaml.Unmarshal` and before `yaml.Marshal`): the unchecked
`resource["kind"].(string)` assertion, the workload-kind dispatch, the
default labels, and — only inside that branch, when a role was supplied —
the role annotation. -/
def processResource (ctx : AddonCtx) (role : String) (resource : List (String × Val)) :
    Res (List (String × Val)) :=
  match lookupStr resource "kind" with
  | some (Val.str kind) =>
    if workloadKindCheck kind then
      match addDefaultLabelsToResource ctx resource with
      | Res.ok r₁ => if role != "" then addRoleAnnotateToResource r₁ role else Res.ok r₁
      | Res.err e => Res.err e
      | Res.panic => Res.panic
    else Res.ok resource
  | _ => Res.panic

/-- The document loop of `processArtifacts` (lines 326-354): unmarshal each
split document, process it, marshal it back, collecting the re-serialized
documents. -/
def processArtifactDocs (ctx : AddonCtx) (role : String) : List String → Res (List String)
  | [] => Res.ok []
  | obj :: rest =>
    match yamlUnmarshal obj with
    | Res.err _ => Res.err ("unable to unmarshall artifact: " ++ obj)
    | Res.panic => Res.panic
    | Res.ok resource =>
      match processResource ctx role resource with
      | Res.ok r =>
        match yamlMarshal r with
        | Res.ok appendData =>
          (match processArtifactDocs ctx role rest with
           | Res.ok newData => Res.ok (appendData :: newData)
           | Res.err e => Res.err e
           | Res.panic => Res.panic)
        | _ => Res.err "unable to marshall resource"
      | Res.err e => Res.err e
      | Res.panic => Res.panic

/-- One artifact body of `processArtifacts`: split `raw.data` on the document
separator, process every document, and rejoin (lines 323-355). -/
def processArtifactData (ctx : AddonCtx) (role : String) (data : String) : Res String :=
  match processArtifactDocs ctx role (goSplit data "---\n") with
  | Res.ok newData => Res.ok (goJoin newData "---\n")
  | Res.err e => Res.err e
  | Res.panic => Res.panic

/-- One artifact of the `processArtifacts` loop (lines 321-359): the
unchecked map assertion, the `raw.data` read (empty string when absent), the
document processing, and the `SetNestedField` write-back. -/
def processOneArtifact (ctx : AddonCtx) (role : String) (artifact : Val) : Res Val :=
  match artifact with
  | Val.map am =>
    (match processArtifactData ctx role (nestedStringOr am ["raw", "data"]) with
     | Res.ok newData =>
       (match setNestedFieldGo am (Val.str newData) ["raw", "data"] with
        | Res.ok am₂ => Res.ok (Val.map am₂)
        | Res.err e => Res.err e
        | Res.panic => Res.panic)
     | Res.err e => Res.err e
     | Res.panic => Res.panic)
  | _ => Res.panic

def processArtifactList (ctx : AddonCtx) (role : String) : List Val → Res (List Val)
  | [] => Res.ok []
  | a :: rest =>
    match processOneArtifact ctx role a with
    | Res.ok a₂ =>
      (match processArtifactList ctx role rest with
       | Res.ok rest₂ => Res.ok (a₂ :: rest₂)
       | Res.err e => Res.err e
       | Res.panic => Res.panic)
    | Res.err e => Res.err e
    | Res.panic => Res.panic

/-- `processArtifacts` (lines 314-362) on one workflow step object: the
unchecked step map assertion, the nil check on `arguments.artifacts`
(a nil read skips the step), the unchecked slice assertion, and the per-
artifact processing, whose in-place mutation is modelled by writing the
processed artifact list back. -/
def processArtifacts (ctx : AddonCtx) (role : String) (stepObj : Val) : Res Val :=
  match stepObj with
  | Val.map sm =>
    (match nestedFieldNoCopy sm ["arguments", "artifacts"] with
     | Nested.found (Val.list arts) =>
       (match processArtifactList ctx role arts with
        | Res.ok arts₂ =>
          (match setNestedFieldGo sm (Val.list arts₂) ["arguments", "artifacts"] with
           | Res.ok sm₂ => Res.ok (Val.map sm₂)
           | Res.err e => Res.err e
           | Res.panic => Res.panic)
        | Res.err e => Res.err e
        | Res.panic => Res.panic)
     | Nested.found Val.null => Res.ok stepObj
     | Nested.found _ => Res.panic
     | _ => Res.ok stepObj)
  | _ => Res.panic

theorem setNestedFieldGo_get (v : Val) :
    ∀ (path : List String) (m m₂ : List (String × Val)),
    path ≠ [] → setNestedFieldGo m v path = Res.ok m₂ →
    nestedFieldNoCopy m₂ path = Nested.found v := by
  intro path
  induction path with
  | nil => intro m m₂ h _; exact absurd rfl h
  | cons f rest ih =>
    intro m m₂ _ hset
    cases rest with
    | nil =>
      simp only [setNestedFieldGo] at hset
      cases hset
      simp [nestedFieldNoCopy, lookupStr_setKey_self]
    | cons g rest₂ =>
      simp only [setNestedFieldGo] at hset
      cases hl : lookupStr m f with
      | none =>
        rw [hl] at hset
        dsimp only at hset
        cases hrec : setNestedFieldGo [] v (g :: rest₂) with
        | ok m₁ =>
          rw [hrec] at hset
          dsimp only at hset
          cases hset
          simp only [nestedFieldNoCopy, lookupStr_setKey_self]
          exact ih [] m₁ (by simp) hrec
        | err e => rw [hrec] at hset; dsimp only at hset; cases hset
        | panic => rw [hrec] at hset; dsimp only at hset; cases hset
      | some mv =>
        rw [hl] at hset
        cases mv with
        | map m₀ =>
          dsimp only at hset
          cases hrec : setNestedFieldGo m₀ v (g :: rest₂) with
          | ok m₁ =>
            rw [hrec] at hset
            dsimp only at hset
            cases hset
            simp only [nestedFieldNoCopy, lookupStr_setKey_self]
            exact ih m₀ m₁ (by simp) hrec
          | err e => rw [hrec] at hset; dsimp only at hset; cases hset
          | panic => rw [hrec] at hset; dsimp only at hset; cases hset
        | null => dsimp only at hset; cases hset
        | str sv => dsimp only at hset; cases hset
        | int n => dsimp only at hset; cases hset
        | bool b => dsimp only at hset; cases hset
        | list xs => dsimp only at hset; cases hset

theorem addRole_ok_annotation (res r₂ : List (String × Val)) (role : String)
    (h : addRoleAnnotateToResource res role = Res.ok r₂) :
    ∃ A, nestedFieldNoCopy r₂ ["spec", "template", "metadata", "annotations"]
        = Nested.found (Val.map A)
      ∧ lookupStr A "iam.amazonaws.com/role" = some (Val.str role) := by
  unfold addRoleAnnotateToResource at h
  cases h₀ : nestedMapGo res ["spec", "template", "metadata"] with
  | found md =>
    rw [h₀] at h
    dsimp only at h
    cases h₁ : setNestedFieldGo res
        (Val.map (setKey (mapValueOrEmpty md "annotations")
          "iam.amazonaws.com/role" (Val.str role)))
        ["spec", "template", "metadata", "annotations"] with
    | ok r =>
      rw [h₁] at h
      dsimp only at h
      cases h
      exact ⟨_, setNestedFieldGo_get _ _ _ _ (by simp) h₁, lookupStr_setKey_self _ _ _⟩
    | err e => rw [h₁] at h; dsimp only at h; cases h
    | panic => rw [h₁] at h; dsimp only at h; cases h
  | absent =>
    rw [h₀] at h
    dsimp only at h
    cases h₁ : setNestedFieldGo res (Val.map []) ["spec", "template", "metadata"] with
    | ok r₁ =>
      rw [h₁] at h
      dsimp only at h
      cases h₂ : nestedMapGo r₁ ["spec", "template", "metadata"] with
      | found md =>
        rw [h₂] at h
        dsimp only at h
        cases h₃ : setNestedFieldGo r₁
            (Val.map (setKey (mapValueOrEmpty md "annotations")
              "iam.amazonaws.com/role" (Val.str role)))
            ["spec", "template", "metadata", "annotations"] with
        | ok r =>
          rw [h₃] at h
          dsimp only at h
          cases h
          exact ⟨_, setNestedFieldGo_get _ _ _ _ (by simp) h₃, lookupStr_setKey_self _ _ _⟩
        | err e => rw [h₃] at h; dsimp only at h; cases h
        | panic => rw [h₃] at h; dsimp only at h; cases h
      | absent => rw [h₂] at h; dsimp only at h; cases h
      | typeErr => rw [h₂] at h; dsimp only at h; cases h
    | err e => rw [h₁] at h; dsimp only at h; cases h
    | panic => rw [h₁] at h; dsimp only at h; cases h
  | typeErr =>
    rw [h₀] at h
    dsimp only at h
    cases h₁ : setNestedFieldGo res (Val.map []) ["spec", "template", "metadata"] with
    | ok r₁ =>
      rw [h₁] at h
      dsimp only at h
      cases h₂ : nestedMapGo r₁ ["spec", "template", "metadata"] with
      | found md =>
        rw [h₂] at h
        dsimp only at h
        cases h₃ : setNestedFieldGo r₁
            (Val.map (setKey (mapValueOrEmpty md "annotations")
              "iam.amazonaws.com/role" (Val.str role)))
            ["spec", "template", "metadata", "annotations"] with
        | ok r =>
          rw [h₃] at h
          dsimp only at h
          cases h
          exact ⟨_, setNestedFieldGo_get _ _ _ _ (by simp) h₃, lookupStr_setKey_self _ _ _⟩
        | err e => rw [h₃] at h; dsimp only at h; cases h
        | panic => rw [h₃] at h; dsimp only at h; cases h
      | absent => rw [h₂] at h; dsimp only at h; cases h
      | typeErr => rw [h₂] at h; dsimp only at h; cases h
    | err e => rw [h₁] at h; dsimp only at h; cases h
    | panic => rw [h₁] at h; dsimp only at h; cases h

/-- An artifact whose embedded document carries a quoted value that
re-serializes with a bare `---` before a newline. -/
def artifactSeparatorInValue : Val :=
  Val.map [("raw", Val.map [("data", Val.str "a: \"x---\"\nkind: ConfigMap\n")])]

/-- C5: the Artifact Post-Processor is not idempotent.  On the document
`a: "x---"` + `kind: ConfigMap` the first application succeeds and emits the
value as the plain scalar `x---`, so the output contains `---` followed by a
newline inside the document; the second application splits the output at
that separator occurrence, re-parses the fragment `a: x` — which has no
`kind` field — and aborts via the unchecked `resource["kind"].(string)` type
assertion instead of returning the same bytes. -/
theorem C5_second_application_aborts :
    processArtifactData ctxChecksumA "" "a: \"x---\"\nkind: ConfigMap\n"
      = Res.ok "a: x---\nkind: ConfigMap\n"
    ∧ processArtifactData ctxChecksumA "" "a: x---\nkind: ConfigMap\n" = Res.panic
    ∧ processOneArtifact ctxChecksumA "" artifactSeparatorInValue
      = Res.ok (Val.map [("raw", Val.map [("data", Val.str "a: x---\nkind: ConfigMap\n")])]) :=
  ⟨rfl, rfl, rfl⟩

/-- C6, counterexample: a Service-kind document without a metadata field
makes the label step abort (the nil metadata map's labels write panics), so
post-processing does not set the four labels on every workload-kind
document. -/
theorem C6_counterexample_metadataless_workload_aborts :
    processResource ctxChecksumA "" [("kind", Val.str "Service")] = Res.panic := rfl

/-- C6, amended: for every document whose kind is one of {StatefulSet,
Deployment, DaemonSet, ReplicaSet, Service} *and whose metadata field is a
map*, post-processing (with no role) succeeds and merges the four default
labels into `metadata.labels` — name, version (the addon package version),
part-of, managed-by — leaving every pre-existing label with an unrelated key
unchanged, every top-level field other than `metadata` unchanged, and every
metadata field other than `labels` unchanged. -/
theorem C6_default_labels_amended (ctx : AddonCtx) (resource md : List (String × Val))
    (kind : String)
    (hkind : lookupStr resource "kind" = some (Val.str kind))
    (hwk : workloadKindCheck kind = true)
    (hmd : lookupStr resource "metadata" = some (Val.map md)) :
    ∃ r₂, processResource ctx "" resource = Res.ok r₂
      ∧ nestedFieldNoCopy r₂ ["metadata", "labels"]
          = Nested.found (Val.map (labelsMerged ctx (mapValueOrEmpty md "labels")))
      ∧ lookupStr (labelsMerged ctx (mapValueOrEmpty md "labels"))
          "app.kubernetes.io/name" = some (Val.str ctx.name)
      ∧ lookupStr (labelsMerged ctx (mapValueOrEmpty md "labels"))
          "app.kubernetes.io/version" = some (Val.str ctx.pkgVersion)
      ∧ lookupStr (labelsMerged ctx (mapValueOrEmpty md "labels"))
          "app.kubernetes.io/part-of" = some (Val.str ctx.name)
      ∧ lookupStr (labelsMerged ctx (mapValueOrEmpty md "labels"))
          "app.kubernetes.io/managed-by" = some (Val.str addonGroupName)
      ∧ (∀ k, k ≠ "app.kubernetes.io/name" → k ≠ "app.kubernetes.io/version" →
          k ≠ "app.kubernetes.io/part-of" → k ≠ "app.kubernetes.io/managed-by" →
          lookupStr (labelsMerged ctx (mapValueOrEmpty md "labels")) k
            = lookupStr (mapValueOrEmpty md "labels") k)
      ∧ (∀ k, k ≠ "metadata" → lookupStr r₂ k = lookupStr resource k)
      ∧ (∃ md₂, lookupStr r₂ "metadata" = some (Val.map md₂)
          ∧ ∀ k, k ≠ "labels" → lookupStr md₂ k = lookupStr md k) := by
  have hgo : nestedMapGo resource ["metadata"] = MapRes.found md := by
    simp [nestedMapGo, nestedFieldNoCopy, hmd]
  have hset : setNestedFieldGo resource
      (Val.map (labelsMerged ctx (mapValueOrEmpty md "labels"))) ["metadata", "labels"]
      = Res.ok (setKey resource "metadata" (Val.map (setKey md "labels"
          (Val.map (labelsMerged ctx (mapValueOrEmpty md "labels")))))) := by
    simp [setNestedFieldGo, hmd]
  have hlab : addDefaultLabelsToResource ctx resource
      = Res.ok (setKey resource "metadata" (Val.map (setKey md "labels"
          (Val.map (labelsMerged ctx (mapValueOrEmpty md "labels")))))) := by
    simp only [addDefaultLabelsToResource, hgo, hset]
  have hrun : processResource ctx "" resource
      = Res.ok (setKey resource "metadata" (Val.map (setKey md "labels"
          (Val.map (labelsMerged ctx (mapValueOrEmpty md "labels")))))) := by
    simp only [processResource, hkind, hwk, if_true, hlab]
    rfl
  refine ⟨_, hrun, ?_, ?_, ?_, ?_, ?_, ?_, ?_, ?_⟩
  · simp [nestedFieldNoCopy, lookupStr_setKey_self]
  · unfold labelsMerged
    rw [lookupStr_setKey_other _ _ _ _ (by decide),
        lookupStr_setKey_other _ _ _ _ (by decide),
        lookupStr_setKey_other _ _ _ _ (by decide),
        lookupStr_setKey_self]
  · unfold labelsMerged
    rw [lookupStr_setKey_other _ _ _ _ (by decide),
        lookupStr_setKey_other _ _ _ _ (by decide),
        lookupStr_setKey_self]
  · unfold labelsMerged
    rw [lookupStr_setKey_other _ _ _ _ (by decide),
        lookupStr_setKey_self]
  · unfold labelsMerged
    rw [lookupStr_setKey_self]
  · intro k h₁ h₂ h₃ h₄
    unfold labelsMerged
    rw [lookupStr_setKey_other _ _ _ _ h₄,
        lookupStr_setKey_other _ _ _ _ h₃,
        lookupStr_setKey_other _ _ _ _ h₂,
        lookupStr_setKey_other _ _ _ _ h₁]
  · intro k hk
    rw [lookupStr_setKey_other _ _ _ _ hk]
  · refine ⟨_, lookupStr_setKey_self _ _ _, ?_⟩
    intro k hk
    rw [lookupStr_setKey_other _ _ _ _ hk]

/-- The metadata of the witness Deployment: a name and one pre-existing
unrelated label. -/
def mdDeploy : List (String × Val) :=
  [("name", Val.str "d1"), ("labels", Val.map [("team", Val.str "growth")])]

/-- A Deployment manifest with a pre-existing label and a pod template. -/
def deployDoc : List (String × Val) :=
  [("kind", Val.str "Deployment"),
   ("metadata", Val.map mdDeploy),
   ("spec", Val.map [("template", Val.map [("metadata", Val.map [])])])]

/-- C6, witness: the Deployment manifest gains the four
`app.kubernetes.io/{name,version,part-of,managed-by}` labels while the
pre-existing `team` label keeps its value. -/
theorem C6_default_labels_amended_witness :
    (∃ r₂, processResource ctxChecksumA "" deployDoc = Res.ok r₂
      ∧ nestedFieldNoCopy r₂ ["metadata", "labels"]
          = Nested.found (Val.map (labelsMerged ctxChecksumA (mapValueOrEmpty mdDeploy "labels")))
      ∧ lookupStr (labelsMerged ctxChecksumA (mapValueOrEmpty mdDeploy "labels"))
          "app.kubernetes.io/name" = some (Val.str ctxChecksumA.name)
      ∧ lookupStr (labelsMerged ctxChecksumA (mapValueOrEmpty mdDeploy "labels"))
          "app.kubernetes.io/version" = some (Val.str ctxChecksumA.pkgVersion)
      ∧ lookupStr (labelsMerged ctxChecksumA (mapValueOrEmpty mdDeploy "labels"))
          "app.kubernetes.io/part-of" = some (Val.str ctxChecksumA.name)
      ∧ lookupStr (labelsMerged ctxChecksumA (mapValueOrEmpty mdDeploy "labels"))
          "app.kubernetes.io/managed-by" = some (Val.str addonGroupName)
      ∧ (∀ k, k ≠ "app.kubernetes.io/name" → k ≠ "app.kubernetes.io/version" →
          k ≠ "app.kubernetes.io/part-of" → k ≠ "app.kubernetes.io/managed-by" →
          lookupStr (labelsMerged ctxChecksumA (mapValueOrEmpty mdDeploy "labels")) k
            = lookupStr (mapValueOrEmpty mdDeploy "labels") k)
      ∧ (∀ k, k ≠ "metadata" → lookupStr r₂ k = lookupStr deployDoc k)
      ∧ (∃ md₂, lookupStr r₂ "metadata" = some (Val.map md₂)
          ∧ ∀ k, k ≠ "labels" → lookupStr md₂ k = lookupStr mdDeploy k))
    ∧ lookupStr (labelsMerged ctxChecksumA (mapValueOrEmpty mdDeploy "labels")) "team"
        = some (Val.str "growth") :=
  ⟨C6_default_labels_amended ctxChecksumA deployDoc mdDeploy "Deployment" rfl rfl rfl, rfl⟩

/-- C7, counterexample: with a role supplied, a successfully parsed document
whose kind is not a workload kind (a ConfigMap) is passed through unchanged
and does NOT receive the `iam.amazonaws.com/role` annotation — the
annotation step runs only inside the workload-kind branch. -/
theorem C7_counterexample_nonworkload_unannotated :
    processResource ctxChecksumA "myrole" [("kind", Val.str "ConfigMap")]
      = Res.ok [("kind", Val.str "ConfigMap")]
    ∧ nestedFieldNoCopy [("kind", Val.str "ConfigMap")]
        ["spec", "template", "metadata", "annotations"] = Nested.absent :=
  ⟨rfl, rfl⟩

/-- C7, amended: for every invocation with a non-empty role, every
successfully processed document *whose kind is one of the workload kinds*
has `spec.template.metadata.annotations` ensured to exist (intermediate maps
created as needed) with the fixed key `iam.amazonaws.com/role` set to the
role value; documents of other kinds are passed through without the
annotation (see the counterexample). -/
theorem C7_role_annotation_amended (ctx : AddonCtx) (role : String)
    (resource r₂ : List (String × Val)) (kind : String)
    (hrole : (role != "") = true)
    (hkind : lookupStr resource "kind" = some (Val.str kind))
    (hwk : workloadKindCheck kind = true)
    (hok : processResource ctx role resource = Res.ok r₂) :
    ∃ A, nestedFieldNoCopy r₂ ["spec", "template", "metadata", "annotations"]
        = Nested.found (Val.map A)
      ∧ lookupStr A "iam.amazonaws.com/role" = some (Val.str role) := by
  unfold processResource at hok
  rw [hkind] at hok
  dsimp only at hok
  rw [if_pos hwk] at hok
  cases h₁ : addDefaultLabelsToResource ctx resource with
  | ok r₁ =>
    rw [h₁] at hok
    dsimp only at hok
    rw [if_pos hrole] at hok
    exact addRole_ok_annotation r₁ r₂ role hok
  | err e => rw [h₁] at hok; dsimp only at hok; cases hok
  | panic => rw [h₁] at hok; dsimp only at hok; cases hok

/-- C7, witness: the witness Deployment processed with role `myrole` carries
the annotation at `spec.template.metadata.annotations`. -/
theorem C7_role_annotation_amended_witness :
    ∃ r₂ A, processResource ctxChecksumA "myrole" deployDoc = Res.ok r₂
      ∧ nestedFieldNoCopy r₂ ["spec", "template", "metadata", "annotations"]
          = Nested.found (Val.map A)
      ∧ lookupStr A "iam.amazonaws.com/role" = some (Val.str "myrole") := by
  have h := C7_role_annotation_amended ctxChecksumA "myrole" deployDoc _ "Deployment"
    rfl rfl rfl rfl
  obtain ⟨A, h₁, h₂⟩ := h
  exact ⟨_, A, rfl, h₁, h₂⟩

end AddonManager
